import Mathlib

set_option maxRecDepth 4000

namespace XmlDateTime

/-- Decimal digit test, mirroring the scanner's character range check. -/
def goDigit (c : Char) : Bool := '0' ≤ c && c ≤ '9'

/-- Value of a digit list, most significant digit first. -/
def digitsVal (l : List Char) : Nat := l.foldl (fun a c => a * 10 + (c.toNat - 48)) 0

/-- Models strconv.ParseInt with base 10: an optional leading sign followed by
at least one digit.  The bit-size range check of the Go function can never
fire at the field widths (at most five characters) used in this package, so
it is omitted. -/
def goParseInt (s : List Char) : Except String Int :=
  match s with
  | [] => .error "invalid syntax"
  | '+' :: rest =>
      if rest ≠ [] ∧ rest.all goDigit = true then .ok (digitsVal rest)
      else .error "invalid syntax"
  | '-' :: rest =>
      if rest ≠ [] ∧ rest.all goDigit = true then .ok (-(digitsVal rest : Int))
      else .error "invalid syntax"
  | _ =>
      if s.all goDigit = true then .ok ((digitsVal s : Int))
      else .error "invalid syntax"

/-- Models exactInt: fail if fewer than l characters remain, otherwise
ParseInt the first l characters and return the rest of the string. -/
def exactInt (s : List Char) (l : Nat) : Except String (Int × List Char) :=
  if s.length < l then .error "not enough"
  else
    match goParseInt (s.take l) with
    | .error e => .error e
    | .ok i => .ok (i, s.drop l)

/-- Last digit consumed by the fractional-second loop (0 when none was). -/
def fracLastDigit (ds : List Char) : Nat :=
  match ds.getLast? with
  | some c => c.toNat - 48
  | none => 0

/-- The checks and scaling parseFractionalSecond performs after its scanning
loop, given the consumed digit prefix ds. -/
def fracFinish (s ds : List Char) : Except String (Nat × List Char) :=
  if ds.length = 0 then
    .error "after . indicating fractional seconds there must be digit"
  else if fracLastDigit ds = 0 then
    .error "fractional second must not end in 0"
  else if 9 < ds.length then
    .error "does not support fraction with precision smaller than 1e-9"
  else
    .ok (digitsVal ds * 10 ^ (9 - ds.length), s.drop ds.length)

/-- Models parseFractionalSecond: the loop consumes the longest digit prefix
of length at most ten while accumulating its value, then the empty, trailing
zero and length checks run in the source's order and the value is left
aligned in nanoseconds. -/
def parseFractionalSecond (s : List Char) : Except String (Nat × List Char) :=
  fracFinish s ((s.take 10).takeWhile goDigit)

/-- Models parseTz: the timezone suffix decoder, returning the zone offset in
seconds east of UTC (time.UTC and time.FixedZone both reduce to their offset
for the instant arithmetic of this package). -/
def parseTz (s : List Char) : Except String Int :=
  if s.length = 0 then .ok 0
  else if s.length = 1 then
    if s.headD ' ' = 'Z' then .ok 0 else .error "tz 1 char but not Z"
  else if s.length = 6 then
    match s.headD ' ' with
    | '+' => parseTzBody 1 (s.drop 1)
    | '-' => parseTzBody (-1) (s.drop 1)
    | _ => .error "timezone must start from + or -"
  else .error "timezone requires exactly 6 characters if not Z"
where
  /-- The hh:mm body after the sign character. -/
  parseTzBody (sign : Int) (s : List Char) : Except String Int :=
    match exactInt s 2 with
    | .error e => .error e
    | .ok (hz, s1) =>
      if 14 < hz then .error "max timezone hour is 14"
      else
        match s1 with
        | ':' :: s2 =>
          match exactInt s2 2 with
          | .error e => .error e
          | .ok (mz, _) => .ok (sign * ((hz * 60) + mz) * 60)
        | _ => .error "expected : in dateTime format after 2 digit timezone hour"

/-- Leap year test of Go's time package; the equality tests against zero make
truncated and euclidean remainders agree. -/
def isLeap (y : Int) : Bool :=
  Int.emod y 4 == 0 && (Int.emod y 100 != 0 || Int.emod y 400 == 0)

/-- Cumulative day counts before each month, Go's daysBefore array. -/
def daysBefore : List Nat := [0, 31, 59, 90, 120, 151, 181, 212, 243, 273, 304, 334, 365]

/-- Days from 0001-01-01 to y-01-01 in the proleptic Gregorian calendar.
This closed floor-division form equals Go's 400/100/4-year cycle counting in
daysSinceEpoch up to the constant shift to Go's absolute zero year. -/
def daysFromYear1 (y : Int) : Int :=
  365 * (y - 1) + Int.fdiv (y - 1) 4 - Int.fdiv (y - 1) 100 + Int.fdiv (y - 1) 400

/-- Go's time.norm for a positive base: carry lo into hi by floor division. -/
def norm (hi lo base : Int) : Int × Int := (hi + Int.fdiv lo base, Int.emod lo base)

/-- A Go time.Time as this package observes it: Unix seconds, the nanosecond
part, and the fixed zone offset in seconds. -/
structure GoTime where
  unix : Int
  nsec : Int
  offset : Int
  deriving DecidableEq, Repr

/-- Models time.Date for a fixed-offset location: normalize the clock fields
by floor carries, normalize the month into the year, convert to a day count,
and subtract the zone offset to obtain Unix seconds. -/
def timeDate (year month day hour minute sec nsec offsetSec : Int) : GoTime :=
  let p1 := norm sec nsec 1000000000
  let p2 := norm minute p1.1 60
  let p3 := norm hour p2.1 60
  let p4 := norm day p3.1 24
  let p5 := norm year (month - 1) 12
  let y := p5.1
  let mo := p5.2 + 1
  let d := daysFromYear1 y + (daysBefore.getD (mo - 1).toNat 0 : Int)
      + (if isLeap y = true ∧ 3 ≤ mo then 1 else 0) + (p4.1 - 1)
  let unix := (d - 719162) * 86400 + p4.2 * 3600 + p3.2 * 60 + p2.2 - offsetSec
  ⟨unix, p1.2, offsetSec⟩

/-- Outcome of running a Go function that may return a value, return an
error, or crash the process with a runtime index-out-of-range fault. -/
inductive POut (α : Type) where
  | ok (a : α)
  | err (msg : String)
  | crash
  deriving DecidableEq, Repr

instance : Monad POut where
  pure := POut.ok
  bind := fun m f =>
    match m with
    | .ok a => f a
    | .err e => .err e
    | .crash => .crash

def liftE {α : Type} : Except String α → POut α
  | .ok a => .ok a
  | .error e => .err e

/-- Models the scanner's delimiter steps: read s[0] (an index out of range
fault when the string is exhausted), compare it to the expected literal, and
consume it. -/
def expectChar (c : Char) (msg : String) : List Char → POut (List Char)
  | [] => .crash
  | x :: rest => if x = c then .ok rest else .err msg

def isOkE {α : Type} : Except String α → Bool
  | .ok _ => true
  | .error _ => false

def isErrE {α : Type} : Except String α → Bool
  | .error _ => true
  | .ok _ => false

def isOkOut {α : Type} : POut α → Bool
  | .ok _ => true
  | _ => false

def isErrOut {α : Type} : POut α → Bool
  | .err _ => true
  | _ => false

/-- Models Parse, the strict left-to-right scanner: optional leading minus,
four-digit year, two-digit month, day, hour, minute and second separated by
their literal delimiters, an optional fraction, and the timezone suffix. -/
def Parse (s : List Char) : POut GoTime := do
  let (sign, s) ← (match s with
    | [] => POut.crash
    | '-' :: rest => POut.ok ((-1 : Int), rest)
    | '+' :: _ => POut.err "+ before year not allowed"
    | _ => POut.ok ((1 : Int), s) : POut (Int × List Char))
  let (year, s) ← liftE (exactInt s 4)
  let year := year * sign
  let s ← expectChar '-' "expected - in dateTime format after 4 digit year" s
  let (month, s) ← liftE (exactInt s 2)
  let s ← expectChar '-' "expected - in dateTime format after 2 digit month" s
  let (day, s) ← liftE (exactInt s 2)
  let s ← expectChar 'T' "expected T in dateTime format" s
  let (hour, s) ← liftE (exactInt s 2)
  let s ← expectChar ':' "expected : in dateTime format after 2 digit hour" s
  let (minute, s) ← liftE (exactInt s 2)
  let s ← expectChar ':' "expected : in dateTime format after 2 digit minute" s
  let (second, s) ← liftE (exactInt s 2)
  let (nsec, s) ← (match s with
    | '.' :: rest => liftE (parseFractionalSecond rest)
    | _ => POut.ok (0, s) : POut (Nat × List Char))
  let offset ← liftE (parseTz s)
  return timeDate year month day hour minute second (nsec : Int) offset

/-- Models the test helper cutOut: remove the character at index i. -/
def cutOut (s : List Char) (i : Nat) : List Char :=
  if i = 0 then s.drop 1
  else if i = s.length - 1 then s.take i
  else s.take i ++ s.drop (i + 1)

/-- The nine capture groups of xmlDateTimeRe; an unparticipating group is the
empty string, as FindStringSubmatch reports it. -/
structure ReGroups where
  year : List Char
  month : List Char
  day : List Char
  hour : List Char
  minute : List Char
  second : List Char
  frac : List Char
  tzh : List Char
  tzm : List Char
  deriving DecidableEq, Repr

/-- Exactly n digits, returning the group and the rest of the input. -/
def takeDigits (n : Nat) (s : List Char) : Option (List Char × List Char) :=
  if (s.take n).length = n ∧ (s.take n).all goDigit = true then some (s.take n, s.drop n)
  else none

/-- One literal character of the pattern. -/
def litChar (c : Char) : List Char → Option (List Char)
  | [] => none
  | x :: rest => if x = c then some rest else none

/-- The trailing optional offset-or-Z alternative of the pattern, returning
the tzh and tzm capture groups (both empty when the suffix is absent or Z). -/
def tzMatch : List Char → Option (List Char × List Char)
  | [] => some ([], [])
  | ['Z'] => some ([], [])
  | c :: rest =>
    if c = '+' ∨ c = '-' then
      match rest with
      | [d1, d2, ':', d3, d4] =>
        if goDigit d1 && goDigit d2 && goDigit d3 && goDigit d4 then
          some ([c, d1, d2], [d3, d4])
        else none
      | _ => none
    else none

/-- Models xmlDateTimeRe.FindStringSubmatch on its doubly anchored pattern.
The pattern is deterministic — the fraction group is digit-greedy and cannot
overlap the suffix alternative, which is decided by its first character — so
no backtracking arises and a single left-to-right pass is faithful. -/
def reMatch (s : List Char) : Option ReGroups := do
  let (neg, s) := (match s with
    | '-' :: rest => (true, rest)
    | _ => (false, s) : Bool × List Char)
  let (yd, s) ← takeDigits 4 s
  let yearG := if neg then '-' :: yd else yd
  let s ← litChar '-' s
  let (moG, s) ← takeDigits 2 s
  let s ← litChar '-' s
  let (dG, s) ← takeDigits 2 s
  let s ← litChar 'T' s
  let (hG, s) ← takeDigits 2 s
  let s ← litChar ':' s
  let (miG, s) ← takeDigits 2 s
  let s ← litChar ':' s
  let (seG, s) ← takeDigits 2 s
  let (fracG, s) ← (match s with
    | '.' :: rest =>
      if rest.takeWhile goDigit = [] then none
      else some (rest.takeWhile goDigit, rest.dropWhile goDigit)
    | _ => some (([] : List Char), s) : Option (List Char × List Char))
  let (tzhG, tzmG) ← tzMatch s
  return ⟨yearG, moG, dG, hG, miG, seG, fracG, tzhG, tzmG⟩

/-- Sequential ParseInt of the fixed-width groups, mirroring ParseRe's field
loop that stops at the first error. -/
def parseIntList : List (List Char) → Except String (List Int)
  | [] => .ok []
  | g :: gs =>
    match goParseInt g with
    | .error e => .error e
    | .ok v =>
      match parseIntList gs with
      | .error e => .error e
      | .ok vs => .ok (v :: vs)

/-- The fraction and timezone steps that ParseRe and ParseRe2 share verbatim:
decode the fraction group when present, decode the signed zone hour and the
zone minute when either group is present, and build the time.Date value. -/
def reTail (g : ReGroups) (y mo d h mi se : Int) : POut GoTime :=
  match (if g.frac ≠ [] then
      match parseFractionalSecond g.frac with
      | .error e => .error e
      | .ok p => .ok p.1
    else .ok 0 : Except String Nat) with
  | .error e => .err e
  | .ok nsec =>
    match (if g.tzh ≠ [] ∨ g.tzm ≠ [] then
        match goParseInt g.tzh with
        | .error _ => .error "cannot parse zone hour"
        | .ok tmh =>
          if 14 < tmh then .error "max timezone hour is 14"
          else
            match goParseInt g.tzm with
            | .error _ => .error "cannot parse zone minute"
            | .ok tmm => .ok (((tmh * 60) + tmm) * 60)
      else .ok 0 : Except String Int) with
    | .error e => .err e
    | .ok offset => .ok (timeDate y mo d h mi se (nsec : Int) offset)

/-- Models ParseRe: match the pattern, decode the six fields through the
shared loop, then run the shared fraction and timezone tail. -/
def ParseRe (s : List Char) : POut GoTime :=
  match reMatch s with
  | none => .err "does not match format"
  | some g =>
    match parseIntList [g.year, g.month, g.day, g.hour, g.minute, g.second] with
    | .error e => .err e
    | .ok (y :: mo :: d :: h :: mi :: se :: _) => reTail g y mo d h mi se
    | .ok _ => .err "does not match format"

/-- Models ParseRe2: the same as ParseRe with the six field decodings
unrolled into consecutive blocks. -/
def ParseRe2 (s : List Char) : POut GoTime :=
  match reMatch s with
  | none => .err "does not match format"
  | some g =>
    match goParseInt g.year with
    | .error e => .err e
    | .ok y =>
      match goParseInt g.month with
      | .error e => .err e
      | .ok mo =>
        match goParseInt g.day with
        | .error e => .err e
        | .ok d =>
          match goParseInt g.hour with
          | .error e => .err e
          | .ok h =>
            match goParseInt g.minute with
            | .error e => .err e
            | .ok mi =>
              match goParseInt g.second with
              | .error e => .err e
              | .ok se => reTail g y mo d h mi se

/-- Go's absolute zero year, the epoch of its internal absolute seconds. -/
def absoluteZeroYear : Int := -292277022399

/-- Seconds from Go's absolute epoch to the Unix epoch, through the day
count from year one. -/
def unixToAbsoluteSec : Int := (719162 - daysFromYear1 absoluteZeroYear) * 86400

/-- Models Go's absDate: recover year, month and day from seconds since the
absolute epoch by peeling 400-, 100-, 4- and 1-year cycles and then locating
the month with the daysBefore table and the leap-day adjustment. -/
def absDate (absSec : Nat) : Int × Nat × Nat :=
  let d0 := absSec / 86400
  let n400 := d0 / 146097
  let d1 := d0 - 146097 * n400
  let n100 := d1 / 36524 - d1 / 36524 / 4
  let d2 := d1 - 36524 * n100
  let n4 := d2 / 1461
  let d3 := d2 - 1461 * n4
  let n1 := d3 / 365 - d3 / 365 / 4
  let yday := d3 - 365 * n1
  let year := (400 * n400 + 100 * n100 + 4 * n4 + n1 : Int) + absoluteZeroYear
  if isLeap year = true ∧ yday = 59 then (year, 2, 29)
  else
    let day := if isLeap year = true ∧ 59 < yday then yday - 1 else yday
    let m0 := day / 31
    let endD := daysBefore.getD (m0 + 1) 0
    let begin := if endD ≤ day then endD else daysBefore.getD m0 0
    let m1 := if endD ≤ day then m0 + 1 else m0
    (year, m1 + 1, day - begin + 1)

/-- Decimal digits of a natural number, most significant first. -/
def natDigits (n : Nat) : List Char := Nat.toDigits 10 n

/-- Left pad with zeros to width w. -/
def padZeros (w : Nat) (s : List Char) : List Char := List.replicate (w - s.length) '0' ++ s

/-- Models the layout engine's appendInt: a minus sign for negative values,
then the magnitude zero padded to the width (the sign is extra). -/
def appendInt (w : Nat) (x : Int) : List Char :=
  if x < 0 then '-' :: padZeros w (natDigits (-x).toNat)
  else padZeros w (natDigits x.toNat)

/-- Models Sprintf with a zero-padded width verb: the sign occupies part of
the width, so width three renders -2 as -02 but 2 as 002. -/
def sprintf0d (w : Nat) (x : Int) : List Char :=
  if x < 0 then '-' :: padZeros (w - 1) (natDigits (-x).toNat)
  else padZeros w (natDigits x.toNat)

/-- Models stringify: render the local calendar fields through the
2006-01-02T15:04:05 layout, append the nanoseconds zero padded to nine
digits with trailing zeros trimmed when positive, and append the offset
suffix when the offset is non-zero, with Go's truncated division and
sign-dependent padding.  The location is never nil here, so that guard is
dropped; local years below Go's absolute zero year are out of the model's
range. -/
def stringify (t : GoTime) : List Char :=
  let abs := (t.unix + t.offset + unixToAbsoluteSec).toNat
  let ymd := absDate abs
  let secOfDay := abs % 86400
  let v := appendInt 4 ymd.1 ++ ['-'] ++ padZeros 2 (natDigits ymd.2.1) ++ ['-']
      ++ padZeros 2 (natDigits ymd.2.2) ++ ['T'] ++ padZeros 2 (natDigits (secOfDay / 3600))
      ++ [':'] ++ padZeros 2 (natDigits (secOfDay % 3600 / 60))
      ++ [':'] ++ padZeros 2 (natDigits (secOfDay % 60))
  let v := if 0 < t.nsec then
      v ++ '.' :: ((padZeros 9 (natDigits t.nsec.toNat)).reverse.dropWhile (fun c => c == '0')).reverse
    else v
  if t.offset ≠ 0 then
    let minutes := Int.tdiv t.offset 60
    let hours := Int.tdiv minutes 60
    let v := if 0 < hours then v ++ ['+'] else v
    v ++ sprintf0d 3 hours ++ [':'] ++ sprintf0d 2 (minutes - 60 * hours)
  else v

theorem takeWhile_all_eq (l : List Char) (h : l.all goDigit = true) :
    l.takeWhile goDigit = l := by
  induction l with
  | nil => rfl
  | cons c cs ih =>
    simp only [List.all_cons, Bool.and_eq_true] at h
    simp [List.takeWhile_cons, h.1, ih h.2]

theorem all_take (n : Nat) (l : List Char) (h : l.all goDigit = true) :
    (l.take n).all goDigit = true := by
  induction l generalizing n with
  | nil => simp
  | cons c cs ih =>
    cases n with
    | zero => simp
    | succ m =>
      simp only [List.all_cons, Bool.and_eq_true] at h
      simp only [List.take_succ_cons, List.all_cons, Bool.and_eq_true]
      exact ⟨h.1, ih m h.2⟩

theorem take_eq_self_of_le (l : List Char) (n : Nat) (h : l.length ≤ n) : l.take n = l := by
  induction l generalizing n with
  | nil => simp
  | cons c cs ih =>
    cases n with
    | zero => simp at h
    | succ m =>
      simp only [List.length_cons, Nat.succ_le_succ_iff] at h
      simp [List.take_succ_cons, ih m h]

theorem frac_long_err (s : List Char) (hall : s.all goDigit = true) (hlen : 9 < s.length) :
    isErrE (parseFractionalSecond s) = true := by
  have hds : (s.take 10).takeWhile goDigit = s.take 10 :=
    takeWhile_all_eq _ (all_take 10 s hall)
  have hl : (s.take 10).length = 10 := by
    rw [List.length_take]
    omega
  unfold parseFractionalSecond
  rw [hds]
  unfold fracFinish
  rw [hl]
  by_cases h0 : fracLastDigit (s.take 10) = 0 <;> simp [h0, isErrE]

theorem frac_zero_err (s : List Char) (hall : s.all goDigit = true) (hne : s ≠ [])
    (hlast : s.getLast? = some '0') : isErrE (parseFractionalSecond s) = true := by
  by_cases hlen : 9 < s.length
  · exact frac_long_err s hall hlen
  · have hds : (s.take 10).takeWhile goDigit = s.take 10 :=
      takeWhile_all_eq _ (all_take 10 s hall)
    have htake : s.take 10 = s := take_eq_self_of_le s 10 (by omega)
    have h0 : fracLastDigit s = 0 := by
      simp [fracLastDigit, hlast]
    have hl0 : s.length ≠ 0 := by
      cases s with
      | nil => exact absurd rfl hne
      | cons a l => simp
    unfold parseFractionalSecond
    rw [hds, htake]
    unfold fracFinish
    rw [h0]
    simp [hl0, isErrE]

theorem tz_len_err (s : List Char) (h0 : s.length ≠ 0) (h1 : s.length ≠ 1)
    (h6 : s.length ≠ 6) : isErrE (parseTz s) = true := by
  unfold parseTz
  simp [h0, h1, h6, isErrE]

/-- Claim C1: the spec says Parse never crashes the process on malformed
input.  In the code, Parse reads s[0] with no bounds check, so the empty
string, a bare four-digit year, and an input exhausted right after a
fixed-width field all fault with an index out of range instead of returning
an error value. -/
theorem C1_parse_crashes_on_truncated_input :
    Parse ([] : List Char) = POut.crash ∧
    Parse ("2017".toList) = POut.crash ∧
    Parse ("2017-08-16T13:07".toList) = POut.crash := by
  decide

/-- Claim C2, counterexample: "2017-08-16T13:07:00.12" is accepted, and
deleting the fractional digit at index 20 leaves "2017-08-16T13:07:00.2",
which is again accepted and denotes a different instant, so single-character
deletion from a well-formed string does not always produce an error. -/
theorem C2_counterexample_fraction_digit_deletion :
    isOkOut (Parse ("2017-08-16T13:07:00.12".toList)) = true ∧
    cutOut ("2017-08-16T13:07:00.12".toList) 20 = "2017-08-16T13:07:00.2".toList ∧
    isOkOut (Parse ("2017-08-16T13:07:00.2".toList)) = true ∧
    Parse ("2017-08-16T13:07:00.12".toList) ≠ Parse ("2017-08-16T13:07:00.2".toList) := by
  decide

/-- Claim C2, amended: the no-silent-recovery property holds for the one
well-formed string the repository's own test exercises — deleting any single
character of "2017-08-16T13:07:00.1+02:00" (length 27) yields a parse
error — but not for arbitrary well-formed strings. -/
theorem C2_amended_test_string_deletions_fail :
    ((List.range 27).all fun i =>
      isErrOut (Parse (cutOut ("2017-08-16T13:07:00.1+02:00".toList) i))) = true := by
  decide

/-- Claim C3: the strict scanner and the pattern parser diverge.  On
"...-02:30" both succeed but Parse applies the sign to the whole offset
(-150 minutes) while ParseRe parses the signed hour group and then adds the
minutes (-90 minutes), giving different instants and different offsets; on
"...-15:00" Parse rejects the hour magnitude 15 while ParseRe only checks
tmh > 14 against the signed value -15 and accepts. -/
theorem C3_parsers_diverge_on_negative_offset :
    Parse ("2017-08-16T13:07:00-02:30".toList) = POut.ok ⟨1502897820, 0, -9000⟩ ∧
    ParseRe ("2017-08-16T13:07:00-02:30".toList) = POut.ok ⟨1502894220, 0, -5400⟩ ∧
    Parse ("2017-08-16T13:07:00-02:30".toList) ≠ ParseRe ("2017-08-16T13:07:00-02:30".toList) ∧
    isErrOut (Parse ("2017-08-16T13:07:00-15:00".toList)) = true ∧
    isOkOut (ParseRe ("2017-08-16T13:07:00-15:00".toList)) = true := by
  decide

/-- Claim C4, counterexample: February 30 is not a real calendar date, yet
Parse accepts it — time.Date normalizes out-of-range fields instead of
failing, and Parse performs no calendar validation of its own. -/
theorem C4_counterexample_feb30_accepted :
    isOkOut (Parse ("2017-02-30T00:00:00".toList)) = true := by
  decide

/-- Claim C4, amended: Parse does not validate the assembled calendar
fields; out-of-range day or month values are silently normalized into a
valid date by the time.Date carry rules — February 30 becomes March 2, month
13 rolls into January of the next year, and day 32 of January becomes
February 1. -/
theorem C4_amended_fields_normalized :
    Parse ("2017-02-30T00:00:00".toList) = Parse ("2017-03-02T00:00:00".toList) ∧
    Parse ("2017-13-01T00:00:00".toList) = Parse ("2018-01-01T00:00:00".toList) ∧
    Parse ("2017-01-32T00:00:00".toList) = Parse ("2017-02-01T00:00:00".toList) ∧
    isOkOut (Parse ("2017-03-02T00:00:00".toList)) = true := by
  decide

/-- Claim C5: round-tripping fails on a canonical string with a positive
offset.  Parsing "2017-08-16T13:07:00.09251+02:00" succeeds, but stringify
renders the offset hour with Sprintf's zero-padded width three after already
appending the plus sign, producing "...+002:00" rather than the original
string. -/
theorem C5_roundtrip_fails_on_positive_offset :
    Parse ("2017-08-16T13:07:00.09251+02:00".toList) = POut.ok ⟨1502881620, 92510000, 7200⟩ ∧
    stringify ⟨1502881620, 92510000, 7200⟩ = "2017-08-16T13:07:00.09251+002:00".toList ∧
    stringify ⟨1502881620, 92510000, 7200⟩ ≠ "2017-08-16T13:07:00.09251+02:00".toList := by
  decide

/-- Claim C6: for the instant the repository's own marshalling test
constructs, stringify renders a +2 hour offset as "+002:00" (the sign is
appended first and the zero-padded width-three verb then pads the positive
hour to three digits), not the claimed "+02:00"; the negative-offset and
zero-offset renderings match the claim. -/
theorem C6_positive_offset_padding_bug :
    stringify (timeDate 2017 8 16 13 7 0 92510000 7200)
      = "2017-08-16T13:07:00.09251+002:00".toList ∧
    stringify (timeDate 2017 8 16 11 7 0 92510000 (-7200))
      = "2017-08-16T11:07:00.09251-02:00".toList ∧
    stringify (timeDate 2017 8 16 11 7 0 92510000 0)
      = "2017-08-16T11:07:00.09251".toList := by
  decide

/-- Claim C7: the fractional-second decoder reads its digits left aligned in
nanoseconds and enforces canonical form — the three example values decode as
claimed, the empty digit string is an error, any all-digit string ending in
a zero digit is an error, and any all-digit string longer than nine digits
is an error. -/
theorem C7_fraction_decoder :
    parseFractionalSecond ("1".toList) = .ok (100000000, []) ∧
    parseFractionalSecond ("09251".toList) = .ok (92510000, []) ∧
    parseFractionalSecond ("000000001".toList) = .ok (1, []) ∧
    isErrE (parseFractionalSecond []) = true ∧
    (∀ s : List Char, s.all goDigit = true → s ≠ [] → s.getLast? = some '0' →
      isErrE (parseFractionalSecond s) = true) ∧
    (∀ s : List Char, s.all goDigit = true → 9 < s.length →
      isErrE (parseFractionalSecond s) = true) := by
  exact ⟨by rfl, by rfl, by rfl, by rfl, frac_zero_err, frac_long_err⟩

/-- Witness for C7: the universally quantified parts applied to the concrete
digit strings "10" (trailing zero) and "12345678905" (eleven digits). -/
theorem C7_fraction_decoder_witness :
    isErrE (parseFractionalSecond ("10".toList)) = true ∧
    isErrE (parseFractionalSecond ("12345678905".toList)) = true :=
  ⟨C7_fraction_decoder.2.2.2.2.1 ("10".toList) (by decide) (by decide) (by decide),
   C7_fraction_decoder.2.2.2.2.2 ("12345678905".toList) (by decide) (by decide)⟩

/-- Claim C8: the timezone decoder accepts "+14:00", rejects "+15:00",
accepts "+02:30" as 150 minutes east of UTC, maps both the empty remainder
and "Z" to a zero offset, and rejects every remainder whose length is not
0, 1 or 6. -/
theorem C8_timezone_decoder :
    parseTz ("+14:00".toList) = .ok (14 * 3600) ∧
    isErrE (parseTz ("+15:00".toList)) = true ∧
    parseTz ("+02:30".toList) = .ok (150 * 60) ∧
    parseTz ([] : List Char) = .ok 0 ∧
    parseTz ("Z".toList) = .ok 0 ∧
    (∀ s : List Char, s.length ≠ 0 → s.length ≠ 1 → s.length ≠ 6 →
      isErrE (parseTz s) = true) := by
  exact ⟨by rfl, by rfl, by rfl, by rfl, by rfl, tz_len_err⟩

/-- Witness for C8: the length rule applied to the concrete five-character
remainder "+02:0". -/
theorem C8_timezone_decoder_witness :
    isErrE (parseTz ("+02:0".toList)) = true :=
  C8_timezone_decoder.2.2.2.2.2 ("+02:0".toList) (by decide) (by decide) (by decide)

/-- Claim C9: a sign character inside a fixed-width field is not rejected —
strconv.ParseInt accepts a leading sign, so "2017-+8-16T13:07:00" parses to
the same value as "2017-08-16T13:07:00", and an offset whose hour field is
"-1" is also accepted, contradicting the claimed digits-only rule. -/
theorem C9_signed_field_accepted :
    Parse ("2017-+8-16T13:07:00".toList) = Parse ("2017-08-16T13:07:00".toList) ∧
    isOkOut (Parse ("2017-+8-16T13:07:00".toList)) = true ∧
    isOkOut (Parse ("2017-08-16T13:07:00+-1:30".toList)) = true := by
  decide

/-- Claim C10: ParseRe and ParseRe2 differ only in that the former decodes
the six fixed-width fields through a loop and the latter unrolls it; on
every input they produce the same outcome. -/
theorem C10_ParseRe_eq_ParseRe2 (s : List Char) : ParseRe s = ParseRe2 s := by
  unfold ParseRe ParseRe2
  cases reMatch s with
  | none => rfl
  | some g =>
    simp only [parseIntList]
    cases goParseInt g.year <;> cases goParseInt g.month <;> cases goParseInt g.day <;>
      cases goParseInt g.hour <;> cases goParseInt g.minute <;>
      cases goParseInt g.second <;> rfl

end XmlDateTime

